import Mathlib

/-
Verification of the Ultra-Doc-Intelligence RAG core.

Shallow embedding of the Python modules
  backend/document_processor.py  (chunk_text, _find_sentence_break)
  backend/guardrails.py          (apply_retrieval_guardrail,
                                  compute_confidence_score,
                                  _compute_answer_coverage,
                                  format_guardrail_response)
  backend/rag_engine.py          (ask_question, _build_context)
  backend/vector_store.py        (save_index)

Modelling conventions:
  * Python `str` is modelled as `List Char`; Python `float` as `ℚ`
    (exact rational arithmetic in place of IEEE-754 doubles; the float
    literals 0.25, 0.4, 0.7, 0.2, 0.40, 0.30 of the source are embedded
    as the rationals they denote).
  * Module-level `settings` values read by the source functions
    (CHUNK_SIZE, CHUNK_OVERLAP, SIMILARITY_THRESHOLD,
    CONFIDENCE_LOW_THRESHOLD, CONFIDENCE_MEDIUM_THRESHOLD) are threaded
    as explicit parameters; the configured defaults are 500, 100, 1/4,
    2/5 and 7/10.
  * `logger` calls are pure no-ops and are dropped.
-/

/-- Python whitespace predicate used by `str.split()` / no-argument
`str.strip()` (ASCII whitespace; the rarely-relevant non-ASCII Unicode
space characters Python also treats as whitespace are omitted). -/
def pyIsSpace (c : Char) : Bool :=
  c = ' ' || c = '\t' || c = '\n' || c = '\r' || c = '\x0b' || c = '\x0c'

/-- Python `s.strip(chars)`: remove leading and trailing characters
satisfying the predicate `p`. -/
def pyStrip (p : Char → Bool) (l : List Char) : List Char :=
  ((l.dropWhile p).reverse.dropWhile p).reverse

/-- Helper for `pySplit`: accumulates the current word (reversed) while
scanning the input. -/
def pySplitAux : List Char → List Char → List (List Char)
  | [], acc => if acc.isEmpty then [] else [acc.reverse]
  | c :: cs, acc =>
    if pyIsSpace c then
      if acc.isEmpty then pySplitAux cs [] else acc.reverse :: pySplitAux cs []
    else pySplitAux cs (c :: acc)

/-- Python no-argument `str.split()`: split on runs of whitespace,
discarding empty fields. -/
def pySplit (l : List Char) : List (List Char) :=
  pySplitAux l []

/-- The punctuation set `.,;:!?"'()[]{}` stripped by
`_compute_answer_coverage` (the two brace characters are written with
hex escapes). -/
def isPunct (c : Char) : Bool :=
  c ∈ ['.', ',', ';', ':', '!', '?', '"', '\'', '(', ')', '[', ']', '\x7b', '\x7d']

/-- Python `max(list)` for a non-empty list (the `[]` value is arbitrary;
Python raises there and the source only calls it on lists of length ≥ 2). -/
def pyMax : List ℚ → ℚ
  | [] => 0
  | x :: xs => xs.foldl max x

/-- Python `min(list)` for a non-empty list (same convention as `pyMax`). -/
def pyMin : List ℚ → ℚ
  | [] => 0
  | x :: xs => xs.foldl min x

/-- Python `round(x, 3)`. Python rounds half to even on binary doubles;
over ℚ we use Mathlib's `round` (half away from zero upward), which
agrees except when `1000 * x` is exactly a half-integer — a set of
measure zero never hit by the claims below. -/
def round3 (x : ℚ) : ℚ :=
  (round (1000 * x) : ℚ) / 1000

instance {ε α : Type} [DecidableEq ε] [DecidableEq α] : DecidableEq (Except ε α) := fun x y =>
  match x, y with
  | Except.ok a, Except.ok b =>
    if h : a = b then Decidable.isTrue (by rw [h])
    else Decidable.isFalse (by intro hc; cases hc; exact h rfl)
  | Except.error a, Except.error b =>
    if h : a = b then Decidable.isTrue (by rw [h])
    else Decidable.isFalse (by intro hc; cases hc; exact h rfl)
  | Except.ok _, Except.error _ => Decidable.isFalse (by intro hc; cases hc)
  | Except.error _, Except.ok _ => Decidable.isFalse (by intro hc; cases hc)

/-- Python substring test `needle in hay`. -/
def containsSub (needle : List Char) : List Char → Bool
  | [] => needle.isEmpty
  | c :: rest => needle.isPrefixOf (c :: rest) || containsSub needle rest

-- ── Chunker (backend/document_processor.py) ──────────────────────────

/-- One element of the list returned by `chunk_text` (the Python dict
`{"index": …, "text": …, "char_start": …, "char_end": …}`). -/
structure Chunk where
  index : ℕ
  text : List Char
  char_start : ℕ
  char_end : ℕ
deriving DecidableEq

/-- Python `region.rfind(delim)`: the largest index at which `delim`
occurs as a substring of `region`, or `none` ( `-1` in Python). -/
def rfind (region delim : List Char) : Option ℕ :=
  ((List.range (region.length + 1)).filter
    (fun i => delim.isPrefixOf (region.drop i))).getLast?

/-- The delimiter priority list of `_find_sentence_break`. -/
def sentenceDelims : List (List Char) :=
  [("\n\n").data, ("\n").data, (". ").data, ("? ").data, ("! ").data, ("; ").data]

/-- The `for delimiter in [...]` loop of `_find_sentence_break`: the
first delimiter kind that occurs in the region wins, and yields the
offset just past its last occurrence. -/
def tryDelims : List (List Char) → List Char → Option ℕ
  | [], _ => none
  | d :: ds, region =>
    match rfind region d with
    | some i => some (i + d.length)
    | none => tryDelims ds region

/-- Embedding of `_find_sentence_break(text, start, stop)`. The break window start
`start + int((stop - start) * 0.7)` is embedded as
`start + 7 * (stop - start) / 10` in ℕ; the Python float product
`n * 0.7` can fall one unit below `7n/10` for some window widths
(e.g. `n = 500`), shifting the window start by one character — no claim
below depends on the exact window start. -/
def find_sentence_break (text : List Char) (start stop : ℕ) : ℕ :=
  let searchStart := start + 7 * (stop - start) / 10
  let searchRegion := (text.drop searchStart).take (stop - searchStart)
  match tryDelims sentenceDelims searchRegion with
  | some off => searchStart + off
  | none => stop

/-- The `end` local of one `chunk_text` loop iteration: the tentative
end `min(start + chunk_size, len(text))`, moved back to just after the
last delimiter found in the break window when the tentative end is
before the text's end and the adjustment makes progress. -/
def chunkEnd (text : List Char) (chunkSize start : ℕ) : ℕ :=
  let end0 := min (start + chunkSize) text.length
  if end0 < text.length then
    let adj := find_sentence_break text start end0
    if start < adj then adj else end0
  else end0

/-- The `chunk_content` local of one loop iteration:
`text[start:end].strip()`. -/
def chunkContent (text : List Char) (chunkSize start : ℕ) : List Char :=
  pyStrip pyIsSpace ((text.drop start).take (chunkEnd text chunkSize start - start))

/-- The cursor advance of one loop iteration:
`next_start if next_start > start else end` with
`next_start = end - overlap` (the truncated ℕ subtraction agrees with
Python here: a negative Python `next_start` never exceeds `start`, and
then both take the `end` branch). -/
def chunkNextStart (text : List Char) (chunkSize overlap start : ℕ) : ℕ :=
  if start < chunkEnd text chunkSize start - overlap then chunkEnd text chunkSize start - overlap
  else chunkEnd text chunkSize start

/-- The `while start < len(text)` loop of `chunk_text`, with an explicit
fuel argument bounding the number of iterations (each productive
iteration strictly increases `start`, so `text.length + 1` units of fuel
reproduce the Python loop exactly; see `chunkLoop_fuel_irrel`). `idx` is
`len(chunks)`, the index the next emitted chunk receives. -/
def chunkLoop (text : List Char) (chunkSize overlap : ℕ) :
    ℕ → ℕ → ℕ → List Chunk
  | 0, _, _ => []
  | fuel + 1, start, idx =>
    if start < text.length then
      if (chunkContent text chunkSize start).isEmpty then
        chunkLoop text chunkSize overlap fuel (chunkNextStart text chunkSize overlap start) idx
      else
        ⟨idx, chunkContent text chunkSize start, start, chunkEnd text chunkSize start⟩ ::
          chunkLoop text chunkSize overlap fuel (chunkNextStart text chunkSize overlap start)
            (idx + 1)
    else []

/-- Embedding of `chunk_text(text)` of backend/document_processor.py, with the
`settings.CHUNK_SIZE` / `settings.CHUNK_OVERLAP` reads made explicit
parameters. Raises `ValueError` (modelled as `Except.error`) on
empty-after-strip input. -/
def chunk_text (text : List Char) (chunkSize overlap : ℕ) :
    Except (List Char) (List Chunk) :=
  let t := pyStrip pyIsSpace text
  if t.isEmpty then Except.error (("Cannot chunk empty text.").data)
  else Except.ok (chunkLoop t chunkSize overlap (t.length + 1) 0 0)

-- ── Guardrails (backend/guardrails.py) ───────────────────────────────

/-- One retrieval result as returned by `search_index` of
backend/vector_store.py (the dict `{"text": …, "index": …,
"similarity": …}`); this is the element type consumed by the guardrail
and confidence functions. -/
structure RChunk where
  text : List Char
  index : ℕ
  similarity : ℚ
deriving DecidableEq

/-- Embedding of `apply_retrieval_guardrail(retrieved_chunks)`, with the
`settings.SIMILARITY_THRESHOLD` read made an explicit parameter
(configured default 1/4). -/
def apply_retrieval_guardrail (threshold : ℚ) (retrieved_chunks : List RChunk) :
    Bool × List RChunk :=
  let filtered := retrieved_chunks.filter (fun c => decide (threshold ≤ c.similarity))
  (decide (0 < filtered.length), filtered)

/-- Embedding of `_compute_answer_coverage(answer, chunks)`. Note the Python filter
`if len(word) > 3` tests the raw whitespace token, before the
lower-casing and punctuation stripping applied in the comprehension
head. -/
def compute_answer_coverage (answer : List Char) (chunks : List RChunk) : ℚ :=
  let source_text := (List.intercalate [' '] (chunks.map (fun c => c.text))).map Char.toLower
  let source_words := pySplit source_text
  let answer_words :=
    ((pySplit answer).filter (fun w => decide (3 < w.length))).map
      (fun w => pyStrip isPunct (w.map Char.toLower))
  if answer_words.isEmpty then 1
  else (answer_words.countP (fun w => source_words.contains w) : ℚ) / (answer_words.length : ℚ)

/-- Embedding of `compute_confidence_score(filtered_chunks, answer)`: weighted sum of
retrieval similarity (2/5), chunk agreement (3/10) and answer coverage
(3/10), rounded to three decimals; exactly 0 on an empty list. -/
def compute_confidence_score (filtered_chunks : List RChunk) (answer : List Char) : ℚ :=
  if filtered_chunks.isEmpty then 0
  else
    let similarities := filtered_chunks.map (fun c => c.similarity)
    let retrieval_score := min (similarities.sum / (similarities.length : ℚ)) 1
    let agreement_score :=
      if 2 ≤ similarities.length then 1 - min (pyMax similarities - pyMin similarities) 1
      else (1 / 2 : ℚ)
    let coverage_score := compute_answer_coverage answer filtered_chunks
    round3 (2 / 5 * retrieval_score + 3 / 10 * agreement_score + 3 / 10 * coverage_score)

/-- The fixed refusal message of `format_guardrail_response` (the Python
source writes it as two adjacent string literals). -/
def REFUSAL_MESSAGE : List Char :=
  ("Not found in document. The available context does not contain enough information to answer this question confidently.").data

/-- The visible low-confidence marker prefixed in the soft-warn tier. -/
def WARN_PREFIX : List Char :=
  ("⚠️ Low confidence answer: ").data

/-- The `guardrail_reason` string of the refusal tier. -/
def REASON_LOW : List Char :=
  ("Confidence below minimum threshold").data

/-- The `guardrail_reason` string of the soft-warn tier. -/
def REASON_MEDIUM : List Char :=
  ("Confidence is moderate — answer may be incomplete").data

/-- One entry of the `sources` list built by `ask_question` (the dict
`{"chunk_index": …, "text": …, "similarity": …}`). -/
structure Source where
  chunk_index : ℕ
  text : List Char
  similarity : ℚ
deriving DecidableEq

/-- The response payload shared by `format_guardrail_response` and the
short-circuit return of `ask_question`. -/
structure GuardResponse where
  answer : List Char
  confidence : ℚ
  sources : List Source
  guardrail_triggered : Bool
  guardrail_reason : Option (List Char)
deriving DecidableEq

/-- Embedding of `format_guardrail_response(confidence, answer, sources)`, with the
`settings.CONFIDENCE_LOW_THRESHOLD` / `settings.CONFIDENCE_MEDIUM_THRESHOLD`
reads made explicit parameters (configured defaults 2/5 and 7/10). The
Python builds the pass-tier dict and then overwrites three fields when
`confidence < medium`; the two-way branch below is the same function. -/
def format_guardrail_response (low medium : ℚ) (confidence : ℚ)
    (answer : List Char) (sources : List Source) : GuardResponse :=
  if confidence < low then
    ⟨REFUSAL_MESSAGE, confidence, sources, true, some REASON_LOW⟩
  else if confidence < medium then
    ⟨WARN_PREFIX ++ answer, confidence, sources, true, some REASON_MEDIUM⟩
  else
    ⟨answer, confidence, sources, false, none⟩

-- ── RAG orchestrator (backend/rag_engine.py) ─────────────────────────

/-- The fixed short-circuit payload returned by `ask_question` when the
retrieval guardrail fails. -/
def NO_EVIDENCE_RESPONSE : GuardResponse :=
  ⟨("Not found in document. No relevant sections were found for your question.").data,
   0, [], true, some (("No chunks passed similarity threshold").data)⟩

/-- The phrase whose presence in the lower-cased answer triggers the
confidence clamp in `ask_question`. -/
def REFUSAL_PHRASE : List Char :=
  ("not found in document").data

/-- Embedding of `_build_context(chunks)`: each surviving chunk labeled by its
original index, joined by the `\n\n---\n\n` delimiter. -/
def build_context (chunks : List RChunk) : List Char :=
  List.intercalate (("\n\n---\n\n").data)
    (chunks.map (fun c =>
      ("[Section ").data ++ (toString c.index).data ++ ("]:\n").data ++ c.text))

/-- The `user_message` f-string assembled in step 4 of `ask_question`. -/
def user_message (filtered : List RChunk) (question : List Char) : List Char :=
  ("DOCUMENT CONTEXT:\n").data ++ build_context filtered ++
    ("\n\nQUESTION: ").data ++ question ++
    ("\n\nAnswer using ONLY the context above. If not found, say \"Not found in document.\"").data

/-- The source-formatting comprehension of step 7 of `ask_question`:
text truncated to 300 characters with an ellipsis marker, similarity
rounded to three decimals. -/
def mk_source (c : RChunk) : Source :=
  ⟨c.index, c.text.take 300 ++ (if 300 < c.text.length then ("...").data else []),
   round3 c.similarity⟩

/-- Embedding of `ask_question(document_id, question)` of backend/rag_engine.py.
The two external effects are made explicit: the embedding + index
lookup of steps 1–2 is modelled by passing the `search_index` result
`retrieved_chunks` directly, and the generation model call of step 5 by
the oracle `generate`. The second component of the result records
whether the generation model was called. Settings reads are explicit
parameters as elsewhere. -/
def ask_question (simThreshold low medium : ℚ) (retrieved_chunks : List RChunk)
    (question : List Char) (generate : List Char → List Char) :
    GuardResponse × Bool :=
  let pf := apply_retrieval_guardrail simThreshold retrieved_chunks
  if pf.1 then
    let filtered := pf.2
    let answer := generate (user_message filtered question)
    let confidence0 := compute_confidence_score filtered answer
    let confidence :=
      if containsSub REFUSAL_PHRASE (answer.map Char.toLower) then min confidence0 (1 / 5)
      else confidence0
    let sources := filtered.map mk_source
    (format_guardrail_response low medium confidence answer sources, true)
  else (NO_EVIDENCE_RESPONSE, false)

-- ── Vector store (backend/vector_store.py) ───────────────────────────

/-- The index persisted by `save_index`: the embedding matrix handed to
faiss together with the parallel chunk list dumped to JSON.
`faiss.normalize_L2` rescales each row in place by the inverse of its
L2 norm (an irrational factor); no claim below depends on the stored
numeric values, so the matrix is recorded as passed to faiss, before
that in-place rescaling. -/
structure DocIndex where
  vectors : List (List ℚ)
  chunks : List Chunk
deriving DecidableEq

/-- Whether `np.array(embeddings, dtype="float32")` yields a 2-D matrix:
all rows must have equal length. -/
def isRect : List (List ℚ) → Bool
  | [] => true
  | r :: rs => rs.all (fun x => decide (x.length = r.length))

/-- Embedding of `save_index(document_id, chunks, embeddings)`. The function performs
no validation of its own: it fails only where numpy does — `np.array([])`
is 1-D, so `vectors.shape[1]` raises `IndexError`, and a ragged
`embeddings` list makes `np.array(..., dtype="float32")` raise
`ValueError`. Any non-empty rectangular matrix is persisted together
with the chunk list exactly as given. -/
def save_index (chunks : List Chunk) (embeddings : List (List ℚ)) :
    Except (List Char) DocIndex :=
  if embeddings.isEmpty then
    Except.error (("IndexError: tuple index out of range").data)
  else if ¬ isRect embeddings then
    Except.error (("ValueError: inhomogeneous embedding matrix").data)
  else Except.ok ⟨embeddings, chunks⟩

-- ── Shared helper lemmas ─────────────────────────────────────────────

/-- Both confidence and sources pass through `format_guardrail_response`
unchanged in all three tiers. -/
lemma format_guardrail_response_fields (low medium c : ℚ) (a : List Char) (s : List Source) :
    (format_guardrail_response low medium c a s).confidence = c ∧
    (format_guardrail_response low medium c a s).sources = s := by
  unfold format_guardrail_response
  split
  · exact ⟨rfl, rfl⟩
  split
  · exact ⟨rfl, rfl⟩
  · exact ⟨rfl, rfl⟩

-- quick sanity checks of the embedding on concrete inputs
example : pySplit (("a bc  d ").data) = [("a").data, ("bc").data, ("d").data] := by decide
example : pyStrip isPunct (("cat.").data) = ("cat").data := by decide
example : rfind (("ab. cd. e").data) ((". ").data) = some 6 := by decide
example :
    chunk_text (("hello world").data) 500 100 =
      Except.ok [⟨0, ("hello world").data, 0, 11⟩] := by decide
example : (chunk_text (List.replicate 101 'a') 500 100).map List.length = Except.ok 2 := by decide
example :
    apply_retrieval_guardrail (1/4) [⟨("a").data, 0, 4/5⟩, ⟨("b").data, 1, 1/10⟩, ⟨("c").data, 2, 3/10⟩] =
      (true, [⟨("a").data, 0, 4/5⟩, ⟨("c").data, 2, 3/10⟩]) := by with_unfolding_all decide
example : compute_answer_coverage (("cat.").data) [⟨("dog").data, 0, 9/10⟩] = 0 := by
  with_unfolding_all decide
example :
    compute_confidence_score [⟨("the rate is 1500").data, 0, 9/10⟩] (("the rate is 1500").data) =
      81 / 100 := by with_unfolding_all decide
example :
    compute_confidence_score [⟨("a").data, 0, -1⟩, ⟨("a").data, 1, -1⟩] (("zzzz").data) =
      -(1 / 10) := by with_unfolding_all decide

-- ── C10: the formatter never changes confidence or sources ───────────

/-- C10 (confirmed): `format_guardrail_response` never changes the
confidence or the sources it is given — in all three tiers the returned
payload's confidence field equals the input confidence and its sources
field equals the input sources list. -/
theorem c10_formatter_preserves_confidence_and_sources
    (low medium c : ℚ) (a : List Char) (s : List Source) :
    (format_guardrail_response low medium c a s).confidence = c ∧
    (format_guardrail_response low medium c a s).sources = s :=
  format_guardrail_response_fields low medium c a s

-- ── C5: strict-< threshold boundaries in the formatter ───────────────

/-- C5 (confirmed): the Answer Formatter uses strict `<` at both
thresholds. With `low < medium`: `c < low` yields the refusal tier
(fixed refusal message, guardrail triggered), `low ≤ c < medium` the
soft-warn tier (original answer behind the low-confidence marker,
guardrail triggered), and `medium ≤ c` the pass tier (answer unchanged,
guardrail not triggered, reason `none`); a score exactly equal to a
threshold falls into the higher-trust tier. -/
theorem c5_formatter_strict_boundaries (low medium c : ℚ) (a : List Char) (s : List Source)
    (hlm : low < medium) :
    (c < low →
      format_guardrail_response low medium c a s =
        ⟨REFUSAL_MESSAGE, c, s, true, some REASON_LOW⟩) ∧
    (low ≤ c → c < medium →
      format_guardrail_response low medium c a s =
        ⟨WARN_PREFIX ++ a, c, s, true, some REASON_MEDIUM⟩) ∧
    (medium ≤ c →
      format_guardrail_response low medium c a s = ⟨a, c, s, false, none⟩) := by
  refine ⟨fun h1 => ?_, fun h1 h2 => ?_, fun h1 => ?_⟩
  · unfold format_guardrail_response
    rw [if_pos h1]
  · unfold format_guardrail_response
    rw [if_neg (not_lt.mpr h1), if_pos h2]
  · unfold format_guardrail_response
    rw [if_neg (not_lt.mpr (le_trans hlm.le h1)), if_neg (not_lt.mpr h1)]

/-- Witness for C5 at the configured thresholds 2/5 and 7/10: the exact
boundary value `c = low = 2/5` lands in the soft-warn tier, not the
refusal tier. -/
theorem c5_witness :
    ((2 : ℚ) / 5 < 7 / 10) ∧
    format_guardrail_response (2 / 5) (7 / 10) (2 / 5) (("ok").data) [] =
      ⟨WARN_PREFIX ++ ("ok").data, 2 / 5, [], true, some REASON_MEDIUM⟩ :=
  ⟨by norm_num,
   (c5_formatter_strict_boundaries (2 / 5) (7 / 10) (2 / 5) (("ok").data) []
     (by norm_num)).2.1 le_rfl (by norm_num)⟩

-- ── C8: the retrieval guardrail is an order-preserving filter ────────

/-- C8 (confirmed): `apply_retrieval_guardrail` returns exactly the
subsequence of results whose similarity is at least the threshold, in
their original order (a sublist of the input equal to the literal
filter), and the passed flag is true iff that subsequence is
non-empty. -/
theorem c8_retrieval_guardrail_is_filter (t : ℚ) (rs : List RChunk) :
    List.Sublist (apply_retrieval_guardrail t rs).2 rs ∧
    (apply_retrieval_guardrail t rs).2 = rs.filter (fun c => decide (t ≤ c.similarity)) ∧
    (∀ c ∈ (apply_retrieval_guardrail t rs).2, t ≤ c.similarity) ∧
    ((apply_retrieval_guardrail t rs).1 = true ↔ (apply_retrieval_guardrail t rs).2 ≠ []) := by
  refine ⟨List.filter_sublist rs, rfl, fun c hc => ?_, ?_⟩
  · have hc' : c ∈ rs.filter (fun c => decide (t ≤ c.similarity)) := hc
    exact of_decide_eq_true (List.mem_filter.mp hc').2
  · simp [apply_retrieval_guardrail, List.length_pos]

-- ── C3: save_index performs no count validation ──────────────────────

/-- C3 (corrected): contrary to the claim, `save_index` never checks
`len(chunks) == len(embeddings)`. It succeeds exactly when the
embedding list is a non-empty rectangular matrix — regardless of the
chunk count, persisting the chunk list as given — and fails only with
numpy shape errors (empty or ragged embedding list), not with an
`InvalidInput` count check. -/
theorem c3_amended_no_count_validation (chunks : List Chunk) (embeddings : List (List ℚ)) :
    (save_index chunks embeddings = Except.ok ⟨embeddings, chunks⟩ ↔
      embeddings ≠ [] ∧ isRect embeddings = true) ∧
    ((save_index chunks embeddings).isOk = true ↔
      embeddings ≠ [] ∧ isRect embeddings = true) := by
  by_cases h1 : embeddings = []
  · subst h1
    simp [save_index, Except.isOk, Except.toBool]
  · by_cases h2 : isRect embeddings = true
    · simp [save_index, List.isEmpty_iff, h1, h2, Except.isOk, Except.toBool]
    · simp [save_index, List.isEmpty_iff, h1, h2, Except.isOk, Except.toBool]

/-- Counterexample for C3 as stated: with zero chunks and one embedding
the lengths differ (0 ≠ 1), yet `save_index` succeeds instead of
failing with `InvalidInput`. -/
theorem c3_counterexample :
    ([] : List Chunk).length ≠ [[(1 : ℚ)]].length ∧
    save_index [] [[(1 : ℚ)]] = Except.ok ⟨[[(1 : ℚ)]], []⟩ := by
  constructor
  · with_unfolding_all decide
  · with_unfolding_all decide

-- ── C6: guardrail failure short-circuits before generation ───────────

/-- C6 (confirmed): when no retrieved chunk passes the similarity
threshold, `ask_question` returns the fixed no-evidence response —
confidence 0, empty sources, guardrail triggered — and the generation
model is never called (the Boolean component of the result is the
generation-call flag). -/
theorem c6_short_circuit_skips_generation (simT low medium : ℚ) (retrieved : List RChunk)
    (question : List Char) (generate : List Char → List Char)
    (h : ∀ c ∈ retrieved, c.similarity < simT) :
    ask_question simT low medium retrieved question generate = (NO_EVIDENCE_RESPONSE, false) ∧
    NO_EVIDENCE_RESPONSE.confidence = 0 ∧
    NO_EVIDENCE_RESPONSE.sources = [] ∧
    NO_EVIDENCE_RESPONSE.guardrail_triggered = true := by
  have hf : retrieved.filter (fun c => decide (simT ≤ c.similarity)) = [] :=
    List.filter_eq_nil_iff.mpr (fun c hc => by simpa using not_le.mpr (h c hc))
  refine ⟨?_, rfl, rfl, rfl⟩
  unfold ask_question apply_retrieval_guardrail
  simp [hf]

/-- Witness for C6: a single retrieved chunk with similarity 1/10 below
the configured threshold 1/4 triggers the short circuit. -/
theorem c6_witness :
    ask_question (1 / 4) (2 / 5) (7 / 10) [⟨("alpha").data, 0, 1 / 10⟩] (("q").data)
      (fun _ => []) = (NO_EVIDENCE_RESPONSE, false) :=
  (c6_short_circuit_skips_generation (1 / 4) (2 / 5) (7 / 10) [⟨("alpha").data, 0, 1 / 10⟩]
    (("q").data) (fun _ => [])
    (by intro c hc; simp at hc; rw [hc]; norm_num)).1

-- ── C7: refusal phrase clamps the confidence to 1/5 ──────────────────

/-- C7 (confirmed): whenever the generated answer case-insensitively
contains the phrase "not found in document", the confidence carried by
the payload `ask_question` hands to the Answer Formatter is at most
1/5 (= 0.2), regardless of the retrieved chunks' similarities and the
coverage arithmetic (and the formatter passes confidence through
unchanged). -/
theorem c7_refusal_phrase_caps_confidence (simT low medium : ℚ) (retrieved : List RChunk)
    (question : List Char) (generate : List Char → List Char)
    (h : containsSub REFUSAL_PHRASE
      ((generate (user_message (apply_retrieval_guardrail simT retrieved).2 question)).map
        Char.toLower) = true) :
    (ask_question simT low medium retrieved question generate).1.confidence ≤ 1 / 5 := by
  unfold ask_question
  by_cases hp : (apply_retrieval_guardrail simT retrieved).1 = true
  · simp only [hp, if_true, h, ite_true]
    rw [(format_guardrail_response_fields low medium _ _ _).1]
    exact min_le_right _ _
  · simp only [hp, Bool.false_eq_true, if_false]
    norm_num [NO_EVIDENCE_RESPONSE]

/-- Witness for C7: one strong chunk (similarity 9/10) passes the
guardrail, the generator answers with the refusal phrase, and the
resulting payload confidence is at most 1/5. -/
theorem c7_witness :
    containsSub REFUSAL_PHRASE
      (((fun _ => ("Not found in document.").data)
          (user_message (apply_retrieval_guardrail (1 / 4) [⟨("alpha").data, 0, 9 / 10⟩]).2
            (("q").data))).map Char.toLower) = true ∧
    (ask_question (1 / 4) (2 / 5) (7 / 10) [⟨("alpha").data, 0, 9 / 10⟩] (("q").data)
      (fun _ => ("Not found in document.").data)).1.confidence ≤ 1 / 5 :=
  ⟨by with_unfolding_all decide,
   c7_refusal_phrase_caps_confidence (1 / 4) (2 / 5) (7 / 10) [⟨("alpha").data, 0, 9 / 10⟩]
     (("q").data) (fun _ => ("Not found in document.").data) (by with_unfolding_all decide)⟩

-- ── C2: confidence-score bounds ──────────────────────────────────────

lemma le_foldl_max (xs : List ℚ) : ∀ a : ℚ, a ≤ xs.foldl max a := by
  induction xs with
  | nil => intro a; exact le_refl a
  | cons b t ih => intro a; exact le_trans (le_max_left a b) (ih (max a b))

lemma foldl_min_le (xs : List ℚ) : ∀ a : ℚ, xs.foldl min a ≤ a := by
  induction xs with
  | nil => intro a; exact le_refl a
  | cons b t ih => intro a; exact le_trans (ih (min a b)) (min_le_left a b)

lemma pyMin_le_pyMax (x : ℚ) (xs : List ℚ) : pyMin (x :: xs) ≤ pyMax (x :: xs) :=
  le_trans (foldl_min_le xs x) (le_foldl_max xs x)

lemma countP_div_length_le_one (p : List Char → Bool) (l : List (List Char)) :
    (l.countP p : ℚ) / (l.length : ℚ) ≤ 1 := by
  cases l with
  | nil => norm_num
  | cons x xs =>
    have hl : (0 : ℚ) < ((x :: xs).length : ℚ) := by exact_mod_cast Nat.succ_pos xs.length
    rw [div_le_one hl]
    exact_mod_cast List.countP_le_length p

lemma compute_answer_coverage_nonneg (a : List Char) (c : List RChunk) :
    0 ≤ compute_answer_coverage a c := by
  unfold compute_answer_coverage
  dsimp only
  split
  · norm_num
  · positivity

lemma compute_answer_coverage_le_one (a : List Char) (c : List RChunk) :
    compute_answer_coverage a c ≤ 1 := by
  unfold compute_answer_coverage
  dsimp only
  split
  · norm_num
  · exact countP_div_length_le_one _ _

lemma round3_mono {x y : ℚ} (h : x ≤ y) : round3 x ≤ round3 y := by
  have h1 : round (1000 * x) ≤ round (1000 * y) := by
    rw [round_eq, round_eq]
    exact Int.floor_le_floor (by linarith)
  have h2 : ((round (1000 * x) : ℤ) : ℚ) ≤ ((round (1000 * y) : ℤ) : ℚ) := by exact_mod_cast h1
  unfold round3
  linarith

lemma round3_zero : round3 0 = 0 := by
  simp [round3]

lemma round3_one : round3 1 = 1 := by
  have h : round ((1000 : ℚ) * 1) = (1000 : ℤ) := by
    rw [mul_one, show ((1000 : ℚ)) = ((1000 : ℤ) : ℚ) by norm_num, round_intCast]
  unfold round3
  rw [h]
  norm_num

lemma weighted_round3_le_one {r ag cov : ℚ} (hr : r ≤ 1) (hag : ag ≤ 1) (hcov : cov ≤ 1) :
    round3 (2 / 5 * r + 3 / 10 * ag + 3 / 10 * cov) ≤ 1 := by
  have h := round3_mono (x := 2 / 5 * r + 3 / 10 * ag + 3 / 10 * cov) (y := 1) (by linarith)
  rwa [round3_one] at h

lemma weighted_round3_nonneg {r ag cov : ℚ} (hr : 0 ≤ r) (hag : 0 ≤ ag) (hcov : 0 ≤ cov) :
    0 ≤ round3 (2 / 5 * r + 3 / 10 * ag + 3 / 10 * cov) := by
  have h := round3_mono (x := 0) (y := 2 / 5 * r + 3 / 10 * ag + 3 / 10 * cov) (by linarith)
  rwa [round3_zero] at h

/-- C2 (corrected): `compute_confidence_score` returns exactly 0 on an
empty filtered list and never exceeds 1, but the claimed lower bound
fails for the full similarity range `[-1, 1]` the Retrieval Result data
model allows: it holds once every filtered similarity is non-negative
(see `c2_counterexample` for a negative score at similarity −1). -/
theorem c2_amended_confidence_bounds (filtered : List RChunk) (answer : List Char) :
    compute_confidence_score [] answer = 0 ∧
    compute_confidence_score filtered answer ≤ 1 ∧
    ((∀ c ∈ filtered, 0 ≤ c.similarity) → 0 ≤ compute_confidence_score filtered answer) := by
  refine ⟨rfl, ?_, ?_⟩
  · cases filtered with
    | nil => norm_num [compute_confidence_score]
    | cons x xs =>
      simp only [compute_confidence_score, List.isEmpty_cons, Bool.false_eq_true, if_false]
      apply weighted_round3_le_one
      · exact min_le_right _ _
      · split
        · have h0 : (0 : ℚ) ≤ min (pyMax (List.map (fun c => c.similarity) (x :: xs)) -
              pyMin (List.map (fun c => c.similarity) (x :: xs))) 1 := by
            refine le_min ?_ (by norm_num)
            simp only [List.map_cons]
            exact sub_nonneg.mpr (pyMin_le_pyMax _ _)
          linarith
        · norm_num
      · exact compute_answer_coverage_le_one _ _
  · intro hsim
    cases filtered with
    | nil => norm_num [compute_confidence_score]
    | cons x xs =>
      simp only [compute_confidence_score, List.isEmpty_cons, Bool.false_eq_true, if_false]
      apply weighted_round3_nonneg
      · refine le_min ?_ (by norm_num)
        apply div_nonneg ?_ (by positivity)
        apply List.sum_nonneg
        intro y hy
        rcases List.mem_map.mp hy with ⟨c, hc, rfl⟩
        exact hsim c hc
      · split
        · have h1 := min_le_right (pyMax (List.map (fun c => c.similarity) (x :: xs)) -
            pyMin (List.map (fun c => c.similarity) (x :: xs))) (1 : ℚ)
          linarith
        · norm_num
      · exact compute_answer_coverage_nonneg _ _

/-- Witness for C2: a single chunk with non-negative similarity 1/2
yields a score within the bounds. -/
theorem c2_witness :
    0 ≤ compute_confidence_score [⟨("x").data, 0, 1 / 2⟩] (("hi").data) ∧
    compute_confidence_score [⟨("x").data, 0, 1 / 2⟩] (("hi").data) ≤ 1 :=
  ⟨(c2_amended_confidence_bounds [⟨("x").data, 0, 1 / 2⟩] (("hi").data)).2.2
    (by intro c hc; simp at hc; rw [hc]; norm_num),
   (c2_amended_confidence_bounds [⟨("x").data, 0, 1 / 2⟩] (("hi").data)).2.1⟩

/-- Counterexample for C2 as stated: with two filtered results of
similarity −1 (allowed by the data model's `[-1, 1]` range) and an
ungrounded answer, the score is −1/10 < 0, violating the claimed lower
bound. -/
theorem c2_counterexample :
    ((-1 : ℚ) ≤ -1 ∧ (-1 : ℚ) ≤ 1) ∧
    compute_confidence_score [⟨("a").data, 0, -1⟩, ⟨("a").data, 1, -1⟩] (("zzzz").data) < 0 := by
  refine ⟨⟨le_refl _, by norm_num⟩, ?_⟩
  have h : compute_confidence_score [⟨("a").data, 0, -1⟩, ⟨("a").data, 1, -1⟩]
      (("zzzz").data) = -(1 / 10) := by with_unfolding_all decide
  rw [h]
  norm_num

-- ── C4: coverage token qualification order ───────────────────────────

/-- The coverage computation as claim C4 words it (for comparison with
the source definition): qualifying tokens are those whose length
exceeds 3 AFTER surrounding punctuation is stripped. -/
def coverage_per_claim (answer : List Char) (chunks : List RChunk) : ℚ :=
  let source_text := (List.intercalate [' '] (chunks.map (fun c => c.text))).map Char.toLower
  let source_words := pySplit source_text
  let qualifying :=
    ((pySplit answer).map (fun w => pyStrip isPunct (w.map Char.toLower))).filter
      (fun w => decide (3 < w.length))
  if qualifying.isEmpty then 1
  else (qualifying.countP (fun w => source_words.contains w) : ℚ) / (qualifying.length : ℚ)

/-- The coverage computation as the amended claim words it: qualifying
tokens are the raw whitespace tokens longer than 3 characters BEFORE
stripping; each is then lower-cased and stripped of surrounding
punctuation for the verbatim lookup in the source token set. -/
def coverage_amended_spec (answer : List Char) (chunks : List RChunk) : ℚ :=
  let source_text := (List.intercalate [' '] (chunks.map (fun c => c.text))).map Char.toLower
  let source_words := pySplit source_text
  let qualifying := (pySplit answer).filter (fun w => decide (3 < w.length))
  if qualifying.isEmpty then 1
  else
    (qualifying.countP
        (fun w => source_words.contains (pyStrip isPunct (w.map Char.toLower))) : ℚ) /
      (qualifying.length : ℚ)

/-- C4 (corrected): the source filters on the RAW token length
(`if len(word) > 3` ranges over unstripped `answer.split()` tokens), so
the set of qualifying tokens is the raw whitespace tokens longer than 3
characters, each lower-cased and punctuation-stripped only afterwards
for the verbatim lookup; coverage is the matching fraction over those,
and 1 when no raw token is longer than 3 characters. -/
theorem c4_amended_coverage_counts_raw_tokens (answer : List Char) (chunks : List RChunk) :
    compute_answer_coverage answer chunks = coverage_amended_spec answer chunks ∧
    ((pySplit answer).filter (fun w => decide (3 < w.length)) = [] →
      compute_answer_coverage answer chunks = 1) := by
  have hie : ∀ {α β : Type} (f : α → β) (l : List α), (l.map f).isEmpty = l.isEmpty := by
    intro α β f l; cases l <;> rfl
  constructor
  · unfold compute_answer_coverage coverage_amended_spec
    dsimp only
    rw [List.countP_map, List.length_map, hie]
    rfl
  · intro h
    unfold compute_answer_coverage
    dsimp only
    rw [h]
    simp

/-- Witness for C4: an answer whose raw tokens are all short ("a b")
gets the vacuous coverage 1. -/
theorem c4_witness :
    compute_answer_coverage (("a b").data) [⟨("dog").data, 0, 9 / 10⟩] = 1 :=
  (c4_amended_coverage_counts_raw_tokens (("a b").data) [⟨("dog").data, 0, 9 / 10⟩]).2
    (by with_unfolding_all decide)

/-- Counterexample for C4 as stated: for the answer "cat." (4 raw
characters, 3 after stripping) against a source not containing "cat",
the claim's after-stripping rule predicts vacuous coverage 1, but the
code counts the token and returns coverage 0. -/
theorem c4_counterexample :
    coverage_per_claim (("cat.").data) [⟨("dog").data, 0, 9 / 10⟩] = 1 ∧
    compute_answer_coverage (("cat.").data) [⟨("dog").data, 0, 9 / 10⟩] = 0 := by
  constructor
  · with_unfolding_all decide
  · with_unfolding_all decide

-- ── Chunker loop lemmas ──────────────────────────────────────────────

lemma chunkLoop_stop (text : List Char) (cs ov : ℕ) :
    ∀ (fuel start idx : ℕ), text.length ≤ start →
      chunkLoop text cs ov fuel start idx = [] := by
  intro fuel start idx h
  cases fuel with
  | zero => rfl
  | succ f =>
    simp only [chunkLoop]
    rw [if_neg (not_lt.mpr h)]

lemma start_le_chunkEnd (text : List Char) (cs start : ℕ) (hs : start < text.length) :
    start ≤ chunkEnd text cs start := by
  unfold chunkEnd
  dsimp only
  split
  · split
    · next h => exact le_of_lt h
    · exact le_min (Nat.le_add_right _ _) (le_of_lt hs)
  · exact le_min (Nat.le_add_right _ _) (le_of_lt hs)

lemma start_lt_chunkEnd (text : List Char) (cs start : ℕ) (hs : start < text.length)
    (hcs : 0 < cs) : start < chunkEnd text cs start := by
  unfold chunkEnd
  dsimp only
  split
  · split
    · next h => exact h
    · exact lt_min_iff.mpr ⟨by omega, hs⟩
  · exact lt_min_iff.mpr ⟨by omega, hs⟩

lemma start_lt_chunkEnd_of_content (text : List Char) (cs start : ℕ)
    (h : ¬ (chunkContent text cs start).isEmpty = true) : start < chunkEnd text cs start := by
  by_contra hle
  apply h
  unfold chunkContent
  rw [show chunkEnd text cs start - start = 0 by omega]
  rfl

lemma start_le_chunkNextStart (text : List Char) (cs ov start : ℕ) (hs : start < text.length) :
    start ≤ chunkNextStart text cs ov start := by
  unfold chunkNextStart
  split
  · next h => exact le_of_lt h
  · exact start_le_chunkEnd text cs start hs

lemma start_lt_chunkNextStart (text : List Char) (cs ov start : ℕ) (hs : start < text.length)
    (hcs : 0 < cs) : start < chunkNextStart text cs ov start := by
  unfold chunkNextStart
  split
  · next h => exact h
  · exact start_lt_chunkEnd text cs start hs hcs

/-- With chunk size at least 1, any two fuel amounts that are large
enough to cover the remaining text produce the same chunk list — the
fuel `text.length + 1` used by `chunk_text` reproduces the unbounded
Python loop. -/
lemma chunkLoop_fuel_irrel (text : List Char) (cs ov : ℕ) (hcs : 0 < cs) :
    ∀ (f g start idx : ℕ), text.length ≤ start + f → text.length ≤ start + g →
      chunkLoop text cs ov f start idx = chunkLoop text cs ov g start idx := by
  intro f
  induction f with
  | zero =>
    intro g start idx hf hg
    rw [chunkLoop_stop text cs ov 0 start idx (by omega),
      chunkLoop_stop text cs ov g start idx (by omega)]
  | succ f ih =>
    intro g start idx hf hg
    by_cases hs : start < text.length
    · cases g with
      | zero =>
        rw [chunkLoop_stop text cs ov (f + 1) start idx (by omega),
          chunkLoop_stop text cs ov 0 start idx (by omega)]
      | succ g' =>
        have hn := start_lt_chunkNextStart text cs ov start hs hcs
        simp only [chunkLoop]
        rw [if_pos hs, if_pos hs]
        split
        · exact ih g' _ idx (by omega) (by omega)
        · rw [ih g' _ (idx + 1) (by omega) (by omega)]
    · rw [chunkLoop_stop text cs ov (f + 1) start idx (le_of_not_lt hs),
        chunkLoop_stop text cs ov g start idx (le_of_not_lt hs)]

/-- The loop invariants: sequential indices from `idx`, chunk spans that
start no earlier than the cursor and are non-degenerate, and
non-decreasing `char_start` values. -/
lemma chunkLoop_invariants (text : List Char) (cs ov : ℕ) :
    ∀ (fuel start idx : ℕ),
      ((chunkLoop text cs ov fuel start idx).map Chunk.index =
        List.range' idx (chunkLoop text cs ov fuel start idx).length) ∧
      (∀ c ∈ chunkLoop text cs ov fuel start idx,
        start ≤ c.char_start ∧ c.char_start < c.char_end) ∧
      ((chunkLoop text cs ov fuel start idx).map Chunk.char_start).Pairwise (· ≤ ·) := by
  intro fuel
  induction fuel with
  | zero => intro start idx; exact ⟨rfl, by simp [chunkLoop], by simp [chunkLoop]⟩
  | succ f ih =>
    intro start idx
    by_cases hs : start < text.length
    · simp only [chunkLoop]
      rw [if_pos hs]
      split
      · obtain ⟨h1, h2, h3⟩ := ih (chunkNextStart text cs ov start) idx
        refine ⟨h1, fun c hc => ?_, h3⟩
        have hcc := h2 c hc
        exact ⟨le_trans (start_le_chunkNextStart text cs ov start hs) hcc.1, hcc.2⟩
      · next hcontent =>
        obtain ⟨h1, h2, h3⟩ := ih (chunkNextStart text cs ov start) (idx + 1)
        refine ⟨?_, ?_, ?_⟩
        · simp only [List.map_cons, List.length_cons, h1, List.range'_succ]
        · intro c hc
          rcases List.mem_cons.mp hc with rfl | hmem
          · exact ⟨le_refl start, start_lt_chunkEnd_of_content text cs start hcontent⟩
          · have hcc := h2 c hmem
            exact ⟨le_trans (start_le_chunkNextStart text cs ov start hs) hcc.1, hcc.2⟩
        · simp only [List.map_cons]
          refine List.Pairwise.cons ?_ h3
          intro b hb
          rcases List.mem_map.mp hb with ⟨c, hc, rfl⟩
          exact le_trans (start_le_chunkNextStart text cs ov start hs) (h2 c hc).1
    · rw [chunkLoop_stop text cs ov (f + 1) start idx (le_of_not_lt hs)]
      exact ⟨rfl, by simp, by simp⟩

-- ── C9: chunk_text output invariants ─────────────────────────────────

/-- C9 (confirmed): for every input text accepted by `chunk_text`, the
emitted chunk indices are exactly `0, 1, …, n−1` in emission order,
every chunk satisfies `char_start < char_end`, and the `char_start`
values are non-decreasing across the sequence. -/
theorem c9_chunk_text_invariants (text : List Char) (cs ov : ℕ) (cks : List Chunk)
    (h : chunk_text text cs ov = Except.ok cks) :
    cks.map Chunk.index = List.range cks.length ∧
    (∀ c ∈ cks, c.char_start < c.char_end) ∧
    (cks.map Chunk.char_start).Pairwise (· ≤ ·) := by
  unfold chunk_text at h
  dsimp only at h
  by_cases he : (pyStrip pyIsSpace text).isEmpty = true
  · rw [if_pos he] at h
    cases h
  · rw [if_neg he] at h
    injection h with h
    subst h
    obtain ⟨h1, h2, h3⟩ := chunkLoop_invariants (pyStrip pyIsSpace text) cs ov
      ((pyStrip pyIsSpace text).length + 1) 0 0
    refine ⟨?_, fun c hc => (h2 c hc).2, h3⟩
    rw [h1]
    exact (List.range_eq_range' _).symm

/-- Witness for C9 on the single-chunk input "hello world". -/
theorem c9_witness :
    chunk_text (("hello world").data) 500 100 =
      Except.ok [⟨0, ("hello world").data, 0, 11⟩] ∧
    ([⟨0, ("hello world").data, 0, 11⟩] : List Chunk).map Chunk.index = List.range 1 :=
  ⟨by decide,
   (c9_chunk_text_invariants (("hello world").data) 500 100
     [⟨0, ("hello world").data, 0, 11⟩] (by decide)).1⟩

-- ── pyStrip structure lemmas (for C1) ────────────────────────────────

lemma dropWhile_head_false (p : Char → Bool) :
    ∀ (x : List Char) (c : Char) (t : List Char), x.dropWhile p = c :: t → p c = false := by
  intro x
  induction x with
  | nil => intro c t h; cases h
  | cons a as ih =>
    intro c t h
    rw [List.dropWhile_cons] at h
    by_cases hp : p a = true
    · rw [if_pos hp] at h
      exact ih c t h
    · rw [if_neg hp] at h
      injection h with h1 _
      subst h1
      exact Bool.eq_false_iff.mpr hp

/-- A non-empty stripped string starts and ends with characters that do
not satisfy the stripped predicate. -/
lemma pyStrip_head_last (p : Char → Bool) (l : List Char) (hne : pyStrip p l ≠ []) :
    ∃ c u, pyStrip p l = c :: u ∧ p c = false ∧
      ∃ d v, (pyStrip p l).reverse = d :: v ∧ p d = false := by
  have hstrip : pyStrip p l = ((l.dropWhile p).reverse.dropWhile p).reverse := rfl
  have hBne : (l.dropWhile p).reverse.dropWhile p ≠ [] := by
    intro h
    apply hne
    rw [hstrip, h]
    rfl
  obtain ⟨d, v, hBd⟩ := List.exists_cons_of_ne_nil hBne
  have hd : p d = false := dropWhile_head_false p (l.dropWhile p).reverse d v hBd
  have hrev : (pyStrip p l).reverse = d :: v := by
    rw [hstrip, List.reverse_reverse, hBd]
  have hpre : List.IsPrefix ((l.dropWhile p).reverse.dropWhile p).reverse (l.dropWhile p) := by
    have h2 := List.reverse_prefix.mpr (List.dropWhile_suffix (l := (l.dropWhile p).reverse) p)
    rwa [List.reverse_reverse] at h2
  have hne2 : ((l.dropWhile p).reverse.dropWhile p).reverse ≠ [] := by
    rw [← hstrip]
    exact hne
  obtain ⟨c, u, hcu⟩ := List.exists_cons_of_ne_nil hne2
  obtain ⟨s, hs⟩ := hpre
  rw [hcu] at hs
  have hc : p c = false := by
    apply dropWhile_head_false p l c (u ++ s)
    rw [← hs]
    rfl
  exact ⟨c, u, hstrip.trans hcu, hc, d, v, hrev, hd⟩

/-- Stripping is idempotent. -/
lemma pyStrip_idem (p : Char → Bool) (l : List Char) :
    pyStrip p (pyStrip p l) = pyStrip p l := by
  by_cases hne : pyStrip p l = []
  · rw [hne]
    rfl
  · obtain ⟨c, u, hcu, hc, d, v, hdv, hd⟩ := pyStrip_head_last p l hne
    have h1 : (pyStrip p l).dropWhile p = pyStrip p l := by
      rw [hcu, List.dropWhile_cons, hc]
      simp
    have h2 : (pyStrip p l).reverse.dropWhile p = (pyStrip p l).reverse := by
      rw [hdv, List.dropWhile_cons, hd]
      simp
    have hdef : pyStrip p (pyStrip p l) =
        (((pyStrip p l).dropWhile p).reverse.dropWhile p).reverse := rfl
    rw [hdef, h1, h2, List.reverse_reverse]

/-- If the last character of `l` does not satisfy `p`, stripping leaves
a non-empty string. -/
lemma pyStrip_ne_nil_of_rev (p : Char → Bool) (l : List Char) (c : Char) (t : List Char)
    (h : l.reverse = c :: t) (hc : p c = false) : pyStrip p l ≠ [] := by
  have hAne : l.dropWhile p ≠ [] := by
    intro hA
    have hall := List.dropWhile_eq_nil_iff.mp hA
    have hmem : c ∈ l := by
      have hm : c ∈ l.reverse := by
        rw [h]
        exact List.mem_cons_self c t
      exact List.mem_reverse.mp hm
    rw [hall c hmem] at hc
    cases hc
  have hpre : List.IsPrefix (l.dropWhile p).reverse l.reverse :=
    List.reverse_prefix.mpr (List.dropWhile_suffix p)
  have hArevne : (l.dropWhile p).reverse ≠ [] := by
    intro hh
    exact hAne (List.reverse_eq_nil_iff.mp hh)
  obtain ⟨a, u, hau⟩ := List.exists_cons_of_ne_nil hArevne
  obtain ⟨s, hs⟩ := hpre
  rw [hau, h] at hs
  have hs' : a :: (u ++ s) = c :: t := hs
  injection hs' with h1 _
  subst h1
  intro hstripnil
  have hB : (l.dropWhile p).reverse.dropWhile p = [] := by
    have hdef : pyStrip p l = ((l.dropWhile p).reverse.dropWhile p).reverse := rfl
    rw [hdef] at hstripnil
    exact List.reverse_eq_nil_iff.mp hstripnil
  rw [hau, List.dropWhile_cons, hc] at hB
  simp at hB

-- ── C1: short texts and the duplicate tail chunk ─────────────────────

/-- C1 (corrected): for a text whose stripped length L satisfies
0 < L < chunk_size, `chunk_text` returns one chunk spanning the whole
stripped text only when the overlap is 0 or at least L; with the
configured positive overlap and overlap < L < chunk_size the loop
re-enters at `L - overlap` and emits a second chunk duplicating the
stripped tail `[L - overlap, L)`, so exactly two chunks are returned. -/
theorem c1_amended_short_text_chunks (text : List Char) (cs ov : ℕ)
    (h0 : pyStrip pyIsSpace text ≠ [])
    (hlen : (pyStrip pyIsSpace text).length < cs) (hov : ov < cs) :
    (ov = 0 ∨ (pyStrip pyIsSpace text).length ≤ ov →
      chunk_text text cs ov = Except.ok
        [⟨0, pyStrip pyIsSpace text, 0, (pyStrip pyIsSpace text).length⟩]) ∧
    (0 < ov → ov < (pyStrip pyIsSpace text).length →
      chunk_text text cs ov = Except.ok
        [⟨0, pyStrip pyIsSpace text, 0, (pyStrip pyIsSpace text).length⟩,
         ⟨1, pyStrip pyIsSpace
            ((pyStrip pyIsSpace text).drop ((pyStrip pyIsSpace text).length - ov)),
          (pyStrip pyIsSpace text).length - ov, (pyStrip pyIsSpace text).length⟩]) := by
  set t := pyStrip pyIsSpace text with ht
  have hL : 0 < t.length := List.length_pos.mpr h0
  have htEmpty : ¬ t.isEmpty = true := by
    intro hh
    exact h0 (List.isEmpty_iff.mp hh)
  have hct : chunk_text text cs ov = Except.ok (chunkLoop t cs ov (t.length + 1) 0 0) := by
    unfold chunk_text
    dsimp only
    rw [← ht, if_neg htEmpty]
  have hEnd0 : chunkEnd t cs 0 = t.length := by
    unfold chunkEnd
    dsimp only
    rw [Nat.zero_add, min_eq_right (le_of_lt hlen), if_neg (lt_irrefl t.length)]
  have hCont0 : chunkContent t cs 0 = t := by
    unfold chunkContent
    rw [hEnd0, List.drop_zero, Nat.sub_zero, List.take_length, ht]
    exact pyStrip_idem pyIsSpace text
  have hContNe : ¬ (chunkContent t cs 0).isEmpty = true := by
    rw [hCont0]
    exact htEmpty
  have hNS : chunkNextStart t cs ov 0 =
      if 0 < t.length - ov then t.length - ov else t.length := by
    unfold chunkNextStart
    rw [hEnd0]
  have hstep1 : chunkLoop t cs ov (t.length + 1) 0 0 =
      ⟨0, t, 0, t.length⟩ :: chunkLoop t cs ov t.length (chunkNextStart t cs ov 0) 1 := by
    simp only [chunkLoop]
    rw [if_pos hL, if_neg hContNe, hCont0, hEnd0]
  constructor
  · intro hcase
    have hNSA : chunkNextStart t cs ov 0 = t.length := by
      rw [hNS]
      rcases hcase with h | h <;> split <;> omega
    rw [hct, hstep1, hNSA, chunkLoop_stop t cs ov t.length t.length 1 (le_refl _)]
  · intro hov0 hovL
    have hNSB : chunkNextStart t cs ov 0 = t.length - ov := by
      rw [hNS]
      split <;> omega
    have hEnd2 : chunkEnd t cs (t.length - ov) = t.length := by
      unfold chunkEnd
      dsimp only
      rw [min_eq_right (by omega : t.length ≤ t.length - ov + cs), if_neg (lt_irrefl t.length)]
    have hCont2 : chunkContent t cs (t.length - ov) =
        pyStrip pyIsSpace (t.drop (t.length - ov)) := by
      unfold chunkContent
      rw [hEnd2]
      have htake : (t.drop (t.length - ov)).take ov = t.drop (t.length - ov) :=
        List.take_of_length_le (by rw [List.length_drop]; omega)
      rw [show t.length - (t.length - ov) = ov by omega, htake]
    have hCont2Ne : ¬ (chunkContent t cs (t.length - ov)).isEmpty = true := by
      rw [hCont2]
      intro hh
      have hnil := List.isEmpty_iff.mp hh
      obtain ⟨c, u, hcu, hc, d, v, hdv, hd⟩ := pyStrip_head_last pyIsSpace text h0
      rw [← ht] at hdv
      obtain ⟨k, hk⟩ : ∃ k, ov = k + 1 := ⟨ov - 1, by omega⟩
      have hrev2 : (t.drop (t.length - ov)).reverse = d :: v.take k := by
        rw [List.reverse_drop, show t.length - (t.length - ov) = ov by omega, hdv, hk,
          List.take_succ_cons]
      exact pyStrip_ne_nil_of_rev pyIsSpace (t.drop (t.length - ov)) d (v.take k) hrev2 hd hnil
    have hNS2 : chunkNextStart t cs ov (t.length - ov) = t.length := by
      unfold chunkNextStart
      rw [hEnd2, if_neg (by omega : ¬ (t.length - ov < t.length - ov))]
    have hstep2 : ∀ f : ℕ, 0 < f → chunkLoop t cs ov f (t.length - ov) 1 =
        [⟨1, pyStrip pyIsSpace (t.drop (t.length - ov)), t.length - ov, t.length⟩] := by
      intro f hf
      obtain ⟨g, rfl⟩ : ∃ g, f = g + 1 := ⟨f - 1, by omega⟩
      simp only [chunkLoop]
      rw [if_pos (show t.length - ov < t.length by omega), if_neg hCont2Ne, hCont2, hEnd2, hNS2,
        chunkLoop_stop t cs ov g t.length 2 (le_refl _)]
    rw [hct, hstep1, hNSB, hstep2 t.length hL]

/-- Counterexample for C1 as stated: 101 repetitions of 'a' strip to
themselves (length 101, positive and below the configured chunk size
500), yet `chunk_text` emits two chunks, not one. -/
theorem c1_counterexample :
    (pyStrip pyIsSpace (List.replicate 101 'a')).length = 101 ∧
    (101 : ℕ) < 500 ∧
    (chunk_text (List.replicate 101 'a') 500 100).map List.length = Except.ok 2 := by
  refine ⟨by decide, by decide, by decide⟩

/-- Witness for C1 (amended): the two chunks emitted at the
counterexample input, with the second spanning the 100-character tail
starting at offset 1. -/
theorem c1_witness :
    chunk_text (List.replicate 101 'a') 500 100 =
      Except.ok [⟨0, List.replicate 101 'a', 0, 101⟩,
        ⟨1, List.replicate 100 'a', 1, 101⟩] := by
  have h := (c1_amended_short_text_chunks (List.replicate 101 'a') 500 100 (by decide)
    (by decide) (by decide)).2 (by decide) (by decide)
  rw [h]
  decide
